import Mathlib

set_option maxRecDepth 10000

/-!
# Verification of the vexo dashboard live-log pipeline

Shallow embedding of the log streaming pipeline of `frontend/src/main.js`:
the WebSocket transport with polling fallback, the deduplicating bounded
display buffer (`addLogEntry`), and the autoscroll controller.

Modelling conventions:
* A DOM child of the `#logs` container is identified with the `LogEvent` it
  renders (the HTML text produced for it is presentational only).
* Browser layout is abstracted by a function `sh : List LogEvent → Int`
  giving the `scrollHeight` of the container as a function of its children;
  the code reads `scrollHeight` twice (before and after `appendChild`), which
  the model reflects as `sh children` and `sh (children ++ [log])`.
* The JS `Set` of strings `displayedLogIds` is modelled as a `List String`
  with membership, extended only when the key is new (so insertion order is
  preserved exactly as in the source).
* `console.*` output of the transport handlers is modelled as an explicit
  list of emitted lines, so that claims about logging are statable.
* JSON parsing is a platform primitive; its outcome is an input to the code
  under analysis, modelled as `Option LogEvent` (`none` when `JSON.parse`
  throws or the parsed value has no usable `message` string, in which case
  the handler throws before mutating any state).
-/

/-- A log event as delivered by the server:
`{timestamp: number (unix seconds), level: string, message: string}`. -/
structure LogEvent where
  timestamp : Nat
  level : String
  message : String
deriving DecidableEq, Repr

/-- Derived dedup key, from
`` `${log.timestamp}-${log.level}-${log.message.substring(0, 50)}` ``. -/
def logKey (log : LogEvent) : String :=
  toString log.timestamp ++ "-" ++ log.level ++ "-" ++ log.message.take 50

/-- The `#logs` DOM container: its children and scroll geometry. -/
structure LogsEl where
  children : List LogEvent
  scrollTop : Int
  clientHeight : Int
deriving DecidableEq, Repr

/-- The module-level mutable state of the log pipeline:
`displayedLogIds` (the seen-set), the `#logs` element (absent if
`document.getElementById('logs')` returns null), and `autoscrollEnabled`. -/
structure PipelineState where
  displayedLogIds : List String
  logsEl : Option LogsEl
  autoscrollEnabled : Bool
deriving DecidableEq, Repr

/-- The eviction loop
`while (logsEl.children.length > 500) logsEl.removeChild(logsEl.firstChild)`. -/
def evictLoop : List LogEvent → List LogEvent
  | [] => []
  | x :: t => if (x :: t).length > 500 then evictLoop t else x :: t

/-- `addLogEntry(log)` from `main.js`: bail out if the container is absent;
compute the pre-append scroll predicates; discard if the derived key was
already displayed; otherwise record the key, append the rendered entry,
scroll to the bottom when `autoscrollEnabled && (isAtBottom || isEmpty)`,
and finally evict from the head down to 500 children. -/
def addLogEntry (sh : List LogEvent → Int) (st : PipelineState) (log : LogEvent) :
    PipelineState :=
  match st.logsEl with
  | none => st
  | some el =>
    let isAtBottom := sh el.children - el.scrollTop ≤ el.clientHeight + 100
    let isEmpty := el.children.length = 0
    let logId := logKey log
    if logId ∈ st.displayedLogIds then st
    else
      let newChildren := el.children ++ [log]
      let newTop := if st.autoscrollEnabled ∧ (isAtBottom ∨ isEmpty)
        then sh newChildren else el.scrollTop
      { displayedLogIds := st.displayedLogIds ++ [logId]
        logsEl := some { children := evictLoop newChildren
                         scrollTop := newTop
                         clientHeight := el.clientHeight }
        autoscrollEnabled := st.autoscrollEnabled }

/-- The children of the `#logs` container (`[]` when the container is absent). -/
def childrenOf (st : PipelineState) : List LogEvent :=
  match st.logsEl with
  | none => []
  | some el => el.children

/-- The DisplayBuffer length. -/
def bufferLen (st : PipelineState) : Nat :=
  (childrenOf st).length

/-- The scroll position of the `#logs` container (`0` when absent). -/
def scrollTopOf (st : PipelineState) : Int :=
  match st.logsEl with
  | none => 0
  | some el => el.scrollTop

/-- Pipeline state at page load: empty seen-set, empty container, autoscroll
defaulting to on. -/
def initState : PipelineState :=
  { displayedLogIds := []
    logsEl := some { children := [], scrollTop := 0, clientHeight := 0 }
    autoscrollEnabled := true }

/-! ## Characterization of the eviction loop -/

/-- Keep the newest 500 entries: drop the overflow from the head. -/
def dropToCap (l : List LogEvent) : List LogEvent :=
  l.drop (l.length - 500)

theorem evictLoop_eq_dropToCap : ∀ l : List LogEvent, evictLoop l = dropToCap l
  | [] => rfl
  | x :: t => by
    rw [evictLoop]
    by_cases h : (x :: t).length > 500
    · rw [if_pos h, evictLoop_eq_dropToCap t]
      unfold dropToCap
      have ht : t.length ≥ 500 := by simp at h; omega
      have : (x :: t).length - 500 = (t.length - 500) + 1 := by simp; omega
      rw [this, List.drop_succ_cons]
    · rw [if_neg h]
      unfold dropToCap
      have : (x :: t).length - 500 = 0 := by simp at h ⊢; omega
      rw [this, List.drop_zero]

theorem dropToCap_length_le (l : List LogEvent) : (dropToCap l).length ≤ 500 := by
  unfold dropToCap
  rw [List.length_drop]
  omega

theorem dropToCap_of_le {l : List LogEvent} (h : l.length ≤ 500) : dropToCap l = l := by
  unfold dropToCap
  rw [Nat.sub_eq_zero_of_le h, List.drop_zero]

theorem dropToCap_append (l r : List LogEvent) :
    dropToCap (dropToCap l ++ r) = dropToCap (l ++ r) := by
  by_cases h : l.length ≤ 500
  · rw [dropToCap_of_le h]
  · unfold dropToCap
    simp only [List.length_append, List.length_drop]
    rw [List.drop_append_eq_append_drop, List.drop_append_eq_append_drop, List.drop_drop,
      List.length_drop]
    have h₁ : l.length - 500 + (l.length - (l.length - 500) + r.length - 500)
        = l.length + r.length - 500 := by omega
    have h₂ : l.length - (l.length - 500) + r.length - 500 - (l.length - (l.length - 500))
        = l.length + r.length - 500 - l.length := by omega
    rw [h₁, h₂]

/-! ## Unfolding lemmas for `addLogEntry` -/

theorem addLogEntry_of_none (sh : List LogEvent → Int) {st : PipelineState}
    (e : LogEvent) (hel : st.logsEl = none) : addLogEntry sh st e = st := by
  unfold addLogEntry
  rw [hel]

theorem addLogEntry_of_mem (sh : List LogEvent → Int) {st : PipelineState} {e : LogEvent}
    {el : LogsEl} (hel : st.logsEl = some el) (h : logKey e ∈ st.displayedLogIds) :
    addLogEntry sh st e = st := by
  unfold addLogEntry
  rw [hel]
  simp [h]

theorem addLogEntry_of_not_mem (sh : List LogEvent → Int) {st : PipelineState} {e : LogEvent}
    {el : LogsEl} (hel : st.logsEl = some el) (h : logKey e ∉ st.displayedLogIds) :
    addLogEntry sh st e =
      { displayedLogIds := st.displayedLogIds ++ [logKey e]
        logsEl := some
          { children := evictLoop (el.children ++ [e])
            scrollTop :=
              if st.autoscrollEnabled ∧
                  ((sh el.children - el.scrollTop ≤ el.clientHeight + 100) ∨
                    el.children.length = 0)
                then sh (el.children ++ [e]) else el.scrollTop
            clientHeight := el.clientHeight }
        autoscrollEnabled := st.autoscrollEnabled } := by
  unfold addLogEntry
  rw [hel]
  simp [h]

/-! ## Characterization of a run of novel events -/

/-- Folding `addLogEntry` over a list of pairwise-novel events records all
their keys in arrival order and leaves the newest 500 of the accumulated
entries in the container. -/
theorem foldl_addLogEntry_run (sh : List LogEvent → Int) :
    ∀ (events : List LogEvent) (ids : List String) (ch : List LogEvent)
      (top ht : Int) (auto : Bool),
      (∀ e ∈ events, logKey e ∉ ids) →
      (events.map logKey).Nodup →
      ∃ top',
        events.foldl (addLogEntry sh)
            ⟨ids, some ⟨dropToCap ch, top, ht⟩, auto⟩ =
          ⟨ids ++ events.map logKey, some ⟨dropToCap (ch ++ events), top', ht⟩, auto⟩
  | [], ids, ch, top, ht, auto, _, _ => ⟨top, by simp⟩
  | e :: rest, ids, ch, top, ht, auto, hnot, hnodup => by
    rw [List.foldl_cons,
      @addLogEntry_of_not_mem sh ⟨ids, some ⟨dropToCap ch, top, ht⟩, auto⟩ e
        ⟨dropToCap ch, top, ht⟩ rfl (hnot e (List.mem_cons_self e rest))]
    simp only [evictLoop_eq_dropToCap, dropToCap_append]
    have hsplit : logKey e ∉ rest.map logKey ∧ (rest.map logKey).Nodup := by
      rw [List.map_cons, List.nodup_cons] at hnodup
      exact hnodup
    have hnodup' := hsplit.2
    have hhead : logKey e ∉ rest.map logKey := hsplit.1
    have hnot' : ∀ e' ∈ rest, logKey e' ∉ ids ++ [logKey e] := by
      intro e' he'
      simp only [List.mem_append, List.mem_singleton]
      push_neg
      refine ⟨hnot e' (List.mem_cons_of_mem e he'), ?_⟩
      intro hk
      exact hhead (hk ▸ List.mem_map_of_mem logKey he')
    obtain ⟨top', heq⟩ :=
      foldl_addLogEntry_run sh rest (ids ++ [logKey e]) (ch ++ [e]) _ ht auto hnot' hnodup'
    refine ⟨top', ?_⟩
    rw [heq]
    simp

/-! ## The 500-entry bound -/

theorem bufferLen_addLogEntry_le (sh : List LogEvent → Int) (st : PipelineState)
    (e : LogEvent) (h : bufferLen st ≤ 500) : bufferLen (addLogEntry sh st e) ≤ 500 := by
  cases hel : st.logsEl with
  | none => rw [addLogEntry_of_none sh e hel]; exact h
  | some el =>
    by_cases hmem : logKey e ∈ st.displayedLogIds
    · rw [addLogEntry_of_mem sh hel hmem]; exact h
    · rw [addLogEntry_of_not_mem sh hel hmem]
      simp only [bufferLen, childrenOf, evictLoop_eq_dropToCap]
      exact dropToCap_length_le _

theorem bufferLen_foldl_le (sh : List LogEvent → Int) :
    ∀ (evs : List LogEvent) (st : PipelineState), bufferLen st ≤ 500 →
      bufferLen (evs.foldl (addLogEntry sh) st) ≤ 500
  | [], _, h => h
  | e :: t, st, h =>
    bufferLen_foldl_le sh t (addLogEntry sh st e) (bufferLen_addLogEntry_le sh st e h)

/-- A second `addLogEntry` on the same event hits either the missing-container
early return or the seen-set check and leaves the state untouched. -/
theorem addLogEntry_fixpoint (sh₁ sh₂ : List LogEvent → Int)
    (st : PipelineState) (e : LogEvent) :
    addLogEntry sh₂ (addLogEntry sh₁ st e) e = addLogEntry sh₁ st e := by
  unfold addLogEntry
  cases hel : st.logsEl with
  | none => simp [hel]
  | some el =>
    by_cases hmem : logKey e ∈ st.displayedLogIds
    · simp [hel, hmem]
    · simp [hel, hmem]

/-- C1. Duplicate suppression is idempotent: accepting the same LogEvent a
second time (on any transport, under any intervening DOM layout `sh₂`) leaves
the DisplayBuffer length unchanged: `accept(e); accept(e)` yields the same
DisplayBuffer length as `accept(e)` alone. -/
theorem c1_accept_idempotent (sh₁ sh₂ : List LogEvent → Int)
    (st : PipelineState) (e : LogEvent) :
    bufferLen (addLogEntry sh₂ (addLogEntry sh₁ st e) e) =
      bufferLen (addLogEntry sh₁ st e) := by
  rw [addLogEntry_fixpoint]

/-- C2. Bounded FIFO buffer: from any state within the 500-entry cap, any
sequence of accepts stays within the cap; and accepting 501 novel events
(pairwise distinct derived keys) with strictly increasing timestamps from the
page-load state leaves exactly 500 entries, with the first (lowest-timestamp)
event evicted from the head and every retained entry carrying a strictly
larger timestamp. -/
theorem c2_bounded_fifo (sh : List LogEvent → Int) (events : List LogEvent)
    (hn : events.length = 501)
    (hnodup : (events.map logKey).Nodup)
    (hts : events.Pairwise (fun a b => a.timestamp < b.timestamp)) :
    (∀ (st : PipelineState) (evs : List LogEvent),
        bufferLen st ≤ 500 → bufferLen (evs.foldl (addLogEntry sh) st) ≤ 500) ∧
    bufferLen (events.foldl (addLogEntry sh) initState) = 500 ∧
    ∀ e₀, events.head? = some e₀ →
      e₀ ∉ childrenOf (events.foldl (addLogEntry sh) initState) ∧
      ∀ e ∈ childrenOf (events.foldl (addLogEntry sh) initState),
        e₀.timestamp < e.timestamp := by
  obtain ⟨top', heq⟩ := foldl_addLogEntry_run sh events [] [] 0 0 true (by simp) hnodup
  have hfin : events.foldl (addLogEntry sh) initState =
      ⟨events.map logKey, some ⟨dropToCap events, top', 0⟩, true⟩ := by
    have hinit : initState =
        (⟨[], some ⟨dropToCap [], 0, 0⟩, true⟩ : PipelineState) := rfl
    rw [hinit, heq]
    simp
  have hdrop : dropToCap events = events.drop 1 := by
    unfold dropToCap
    rw [hn]
  refine ⟨fun st evs h => bufferLen_foldl_le sh evs st h, ?_, ?_⟩
  · rw [hfin]
    simp only [bufferLen, childrenOf, hdrop, List.length_drop, hn]
  · intro e₀ he₀
    match events, hn, hnodup, hts, he₀, hfin, hdrop with
    | a :: rest, hn, hnodup, hts, he₀, hfin, hdrop =>
      have he : e₀ = a := by simpa using he₀.symm
      subst he
      have hch : childrenOf ((e₀ :: rest).foldl (addLogEntry sh) initState) = rest := by
        rw [hfin]
        simp only [childrenOf, hdrop, List.drop_succ_cons, List.drop_zero]
      rw [hch]
      constructor
      · intro hmem
        have : logKey e₀ ∈ rest.map logKey := List.mem_map_of_mem logKey hmem
        rw [List.map_cons, List.nodup_cons] at hnodup
        exact hnodup.1 this
      · intro e he
        exact (List.pairwise_cons.mp hts).1 e he

/-! ## Decidable certificates for the C2 witness -/

/-- Boolean lexicographic strict order on char lists. -/
def charListLtB : List Char → List Char → Bool
  | _, [] => false
  | [], _ :: _ => true
  | a :: as, b :: bs => if a = b then charListLtB as bs else decide (a < b)

/-- Boolean lexicographic strict order on strings. -/
def strLtB (a b : String) : Bool :=
  charListLtB a.data b.data

theorem charListLtB_irrefl : ∀ l : List Char, charListLtB l l = false
  | [] => rfl
  | a :: as => by simp [charListLtB, charListLtB_irrefl as]

theorem charListLtB_trans : ∀ {a b c : List Char},
    charListLtB a b = true → charListLtB b c = true → charListLtB a c = true
  | _, _, [], _, h2 => by simp [charListLtB] at h2
  | [], _ :: _, _ :: _, _, _ => rfl
  | a :: as, b :: bs, c :: cs, h1, h2 => by
    simp only [charListLtB] at h1 h2 ⊢
    by_cases hab : a = b <;> by_cases hbc : b = c
    · subst hab; subst hbc
      simp_all
      exact charListLtB_trans h1 h2
    · subst hab; simp_all
    · subst hbc; simp_all
    · simp only [if_neg hab, decide_eq_true_eq] at h1
      simp only [if_neg hbc, decide_eq_true_eq] at h2
      have hac : a < c := lt_trans h1 h2
      simp [ne_of_lt hac, hac]

theorem strLtB_trans {a b c : String} (h1 : strLtB a b = true)
    (h2 : strLtB b c = true) : strLtB a c = true := by
  unfold strLtB at h1 h2 ⊢
  exact charListLtB_trans h1 h2

theorem strLtB_ne {a b : String} (h : strLtB a b = true) : a ≠ b := by
  intro he
  subst he
  rw [strLtB, charListLtB_irrefl] at h
  exact Bool.false_ne_true h

/-- Adjacent strict increase of timestamps, checkable in linear time. -/
def chainTsB : List LogEvent → Bool
  | [] => true
  | [_] => true
  | a :: b :: t => decide (a.timestamp < b.timestamp) && chainTsB (b :: t)

/-- Adjacent strict lexicographic increase of derived keys, checkable in
linear time; it certifies that all derived keys are pairwise distinct. -/
def chainKeysB : List LogEvent → Bool
  | [] => true
  | [_] => true
  | a :: b :: t => strLtB (logKey a) (logKey b) && chainKeysB (b :: t)

theorem chainTsB_pairwise : ∀ {l : List LogEvent}, chainTsB l = true →
    l.Pairwise (fun a b => a.timestamp < b.timestamp) := by
  intro l h
  haveI : IsTrans LogEvent (fun a b => a.timestamp < b.timestamp) :=
    ⟨fun _ _ _ h1 h2 => lt_trans h1 h2⟩
  refine List.chain'_iff_pairwise.mp ?_
  induction l with
  | nil => simp
  | cons a t ih =>
    cases t with
    | nil => simp
    | cons b t' =>
      simp only [chainTsB, Bool.and_eq_true, decide_eq_true_eq] at h
      exact List.Chain'.cons h.1 (ih h.2)

theorem chainKeysB_nodup : ∀ {l : List LogEvent}, chainKeysB l = true →
    (l.map logKey).Nodup := by
  intro l h
  haveI : IsTrans LogEvent (fun a b => strLtB (logKey a) (logKey b) = true) :=
    ⟨fun _ _ _ h1 h2 => strLtB_trans h1 h2⟩
  have hp : l.Pairwise (fun a b => strLtB (logKey a) (logKey b) = true) := by
    refine List.chain'_iff_pairwise.mp ?_
    induction l with
    | nil => simp
    | cons a t ih =>
      cases t with
      | nil => simp
      | cons b t' =>
        simp only [chainKeysB, Bool.and_eq_true] at h
        exact List.Chain'.cons h.1 (ih h.2)
  exact List.pairwise_map.mpr (hp.imp fun hlt => strLtB_ne hlt)

/-- A degenerate DOM layout (every container has scrollHeight 0), used to
instantiate the layout parameter in concrete witnesses. -/
def shZero : List LogEvent → Int := fun _ => 0

/-- 501 events with strictly increasing timestamps 100..600 and unique
derived keys. -/
def c2Events : List LogEvent :=
  (List.range 501).map fun i => { timestamp := 100 + i, level := "info", message := "m" }

/-- Witness for C2 at the concrete 501-event scenario. -/
theorem c2_bounded_fifo_witness :
    c2Events.length = 501 ∧
    bufferLen (c2Events.foldl (addLogEntry shZero) initState) = 500 ∧
    ({ timestamp := 100, level := "info", message := "m" } : LogEvent) ∉
      childrenOf (c2Events.foldl (addLogEntry shZero) initState) := by
  have hn : c2Events.length = 501 := by simp [c2Events]
  have hnodup : (c2Events.map logKey).Nodup := chainKeysB_nodup (by decide)
  have hts : c2Events.Pairwise (fun a b => a.timestamp < b.timestamp) :=
    chainTsB_pairwise (by decide)
  have h := c2_bounded_fifo shZero c2Events hn hnodup hts
  refine ⟨hn, h.2.1, ?_⟩
  have hhead : c2Events.head? = some { timestamp := 100, level := "info", message := "m" } := by
    rfl
  exact (h.2.2 _ hhead).1

/-! ## Key collisions and duplicate delivery -/

/-- Accepting any event whose derived key is already that of the previous
accept leaves the state untouched (generalizes `addLogEntry_fixpoint`). -/
theorem addLogEntry_dup (sh₁ sh₂ : List LogEvent → Int) (st : PipelineState)
    {e₁ e₂ : LogEvent} (hk : logKey e₂ = logKey e₁) :
    addLogEntry sh₂ (addLogEntry sh₁ st e₁) e₂ = addLogEntry sh₁ st e₁ := by
  cases hel : st.logsEl with
  | none =>
    rw [addLogEntry_of_none sh₁ e₁ hel, addLogEntry_of_none sh₂ e₂ hel]
  | some el =>
    by_cases hmem : logKey e₁ ∈ st.displayedLogIds
    · have hm2 : logKey e₂ ∈ st.displayedLogIds := by rw [hk]; exact hmem
      rw [addLogEntry_of_mem sh₁ hel hmem, addLogEntry_of_mem sh₂ hel hm2]
    · rw [addLogEntry_of_not_mem sh₁ hel hmem]
      have hm2 : logKey e₂ ∈ st.displayedLogIds ++ [logKey e₁] := by simp [hk]
      exact addLogEntry_of_mem sh₂ rfl hm2

/-- C3. Key derivation collision: two events with identical timestamp, level
and first 50 message characters share a derived key, so the second to arrive
is discarded as a duplicate (state unchanged) even when the message
remainders differ. -/
theorem c3_key_collision (sh₁ sh₂ : List LogEvent → Int) (st : PipelineState)
    (e₁ e₂ : LogEvent)
    (hts : e₁.timestamp = e₂.timestamp)
    (hlvl : e₁.level = e₂.level)
    (hmsg : e₁.message.take 50 = e₂.message.take 50)
    (_hrem : e₁.message ≠ e₂.message) :
    logKey e₁ = logKey e₂ ∧
      addLogEntry sh₂ (addLogEntry sh₁ st e₁) e₂ = addLogEntry sh₁ st e₁ := by
  have hkey : logKey e₁ = logKey e₂ := by
    unfold logKey
    rw [hts, hlvl, hmsg]
  exact ⟨hkey, addLogEntry_dup sh₁ sh₂ st hkey.symm⟩

/-- Witness for C3: two events agreeing on the first 50 of their 51-char
messages but differing at position 51 collide and the second is dropped. -/
theorem c3_key_collision_witness :
    logKey { timestamp := 1000, level := "info",
             message := "aaaaaaaaaaaaaaaaaaaaaaaaaaaaaaaaaaaaaaaaaaaaaaaaaaX" } =
      logKey { timestamp := 1000, level := "info",
               message := "aaaaaaaaaaaaaaaaaaaaaaaaaaaaaaaaaaaaaaaaaaaaaaaaaaY" } ∧
    addLogEntry shZero
        (addLogEntry shZero initState
          { timestamp := 1000, level := "info",
            message := "aaaaaaaaaaaaaaaaaaaaaaaaaaaaaaaaaaaaaaaaaaaaaaaaaaX" })
        { timestamp := 1000, level := "info",
          message := "aaaaaaaaaaaaaaaaaaaaaaaaaaaaaaaaaaaaaaaaaaaaaaaaaaY" } =
      addLogEntry shZero initState
        { timestamp := 1000, level := "info",
          message := "aaaaaaaaaaaaaaaaaaaaaaaaaaaaaaaaaaaaaaaaaaaaaaaaaaX" } :=
  c3_key_collision shZero shZero initState _ _ rfl rfl (by decide) (by decide)

/-! ## Autoscroll -/

/-- C4. Autoscroll decision: appending a novel entry scrolls to the
(post-append) bottom exactly when autoscroll is enabled and the viewport was
within 100 pixels of the bottom before the append or the buffer was empty;
otherwise the scroll position is left untouched. -/
theorem c4_autoscroll (sh : List LogEvent → Int) (st : PipelineState) (el : LogsEl)
    (e : LogEvent) (hel : st.logsEl = some el)
    (hnovel : logKey e ∉ st.displayedLogIds) :
    scrollTopOf (addLogEntry sh st e) =
      if st.autoscrollEnabled ∧
          ((sh el.children - el.scrollTop ≤ el.clientHeight + 100) ∨
            el.children.length = 0)
        then sh (el.children ++ [e])
        else el.scrollTop := by
  rw [addLogEntry_of_not_mem sh hel hnovel]
  rfl

/-- Witness for C4: the very first entry (empty buffer, autoscroll on)
scrolls to the post-append bottom. -/
theorem c4_autoscroll_witness :
    scrollTopOf (addLogEntry shZero initState
      { timestamp := 1, level := "info", message := "m" }) = 0 := by
  have h := c4_autoscroll shZero initState
    { children := [], scrollTop := 0, clientHeight := 0 }
    { timestamp := 1, level := "info", message := "m" } rfl (by decide)
  simpa [shZero, initState] using h

/-! ## Seen-set survival -/

/-- C9. Seen-set outlives eviction: an accept only ever extends the seen-set
(never removes a key, in particular not on eviction), and an event whose key
is already recorded — even when its entry has long been evicted from the
container — is suppressed with the whole state unchanged. -/
theorem c9_seen_set_outlives_eviction (sh : List LogEvent → Int)
    (st : PipelineState) (e : LogEvent) :
    st.displayedLogIds <+: (addLogEntry sh st e).displayedLogIds ∧
    (logKey e ∈ st.displayedLogIds → addLogEntry sh st e = st) := by
  constructor
  · cases hel : st.logsEl with
    | none => rw [addLogEntry_of_none sh e hel]
    | some el =>
      by_cases hmem : logKey e ∈ st.displayedLogIds
      · rw [addLogEntry_of_mem sh hel hmem]
      · rw [addLogEntry_of_not_mem sh hel hmem]
        exact List.prefix_append _ _
  · intro hmem
    cases hel : st.logsEl with
    | none => exact addLogEntry_of_none sh e hel
    | some el => exact addLogEntry_of_mem sh hel hmem

/-- A pipeline state in which the entry for key `1-info-m` has been evicted
from the (now empty) buffer while the key remains in the seen-set. -/
def evictedState : PipelineState :=
  { displayedLogIds := ["1-info-m"]
    logsEl := some { children := [], scrollTop := 0, clientHeight := 0 }
    autoscrollEnabled := true }

/-- The event with derived key `1-info-m`. -/
def evM : LogEvent :=
  { timestamp := 1, level := "info", message := "m" }

/-- Witness for C9: a state whose buffer is empty (entry evicted) but whose
seen-set still holds the key `1-info-m` suppresses a duplicate delivery. -/
theorem c9_seen_set_outlives_eviction_witness :
    evictedState.displayedLogIds <+:
      (addLogEntry shZero evictedState evM).displayedLogIds ∧
    addLogEntry shZero evictedState evM = evictedState :=
  ⟨(c9_seen_set_outlives_eviction shZero evictedState evM).1,
    (c9_seen_set_outlives_eviction shZero evictedState evM).2 (by decide)⟩

/-! ## Missing container -/

/-- C10. If the `#logs` container is absent, `addLogEntry` returns before the
dedup check: the whole pipeline state is unchanged and the key is not
recorded, so a later redelivery of the same event to any state that does have
the container and has not seen the key is treated as novel: the key is then
recorded and the entry is displayed. -/
theorem c10_missing_container (sh : List LogEvent → Int) (st : PipelineState)
    (e : LogEvent) (hel : st.logsEl = none) :
    addLogEntry sh st e = st ∧
    ∀ (st' : PipelineState) (el : LogsEl), st'.logsEl = some el →
      logKey e ∉ st'.displayedLogIds →
      logKey e ∈ (addLogEntry sh st' e).displayedLogIds ∧
      e ∈ childrenOf (addLogEntry sh st' e) := by
  refine ⟨addLogEntry_of_none sh e hel, ?_⟩
  intro st' el hel' hnovel
  rw [addLogEntry_of_not_mem sh hel' hnovel]
  constructor
  · simp
  · simp only [childrenOf, evictLoop_eq_dropToCap]
    unfold dropToCap
    rw [List.drop_append_of_le_length
      (by simp only [List.length_append, List.length_singleton]; omega)]
    simp

/-- A pipeline state whose `#logs` container is absent. -/
def noContainerState : PipelineState :=
  { displayedLogIds := [], logsEl := none, autoscrollEnabled := true }

/-- Witness for C10: with the container absent the event is dropped without
being recorded; redelivered to the page-load state (container present) it is
displayed. -/
theorem c10_missing_container_witness :
    addLogEntry shZero noContainerState evM = noContainerState ∧
    evM ∈ childrenOf (addLogEntry shZero initState evM) :=
  ⟨(c10_missing_container shZero noContainerState evM rfl).1,
    ((c10_missing_container shZero noContainerState evM rfl).2
      initState { children := [], scrollTop := 0, clientHeight := 0 } rfl (by decide)).2⟩

/-! ## Transport layer

The WebSocket client with polling fallback (`initWebSocket` and the
module-level `setInterval`), embedded as a labelled transition system over
the browser's single-threaded event loop. Timers may fire at or after their
due time (browser timers are never early); `console.*` output is modelled as
an append-only list of lines. -/

/-- `WebSocket.readyState` values. -/
inductive WsReadyState
  | CONNECTING
  | OPEN
  | CLOSING
  | CLOSED
deriving DecidableEq, Repr

/-- Console line emitted by `initWebSocket` before dialing. -/
def wsConnectingLine : String := "[Dashboard] Connecting to WebSocket"

/-- Console line emitted by `ws.onopen`. -/
def wsConnectedLine : String := "[Dashboard] WebSocket connected"

/-- Console line emitted by `ws.onclose`. -/
def wsClosedLine : String := "[Dashboard] WebSocket closed, retrying in 3s..."

/-- Console line emitted by `ws.onerror`. -/
def wsErrorLine : String := "[Dashboard] WebSocket error:"

/-- Console line emitted by the poll tick's `catch`. -/
def pollFailLine : String := "[Dashboard] Polling failed"

/-- `ws.onmessage`: `JSON.parse` the frame data and forward to
`addLogEntry`. `decoded` is the platform parse outcome: `none` when
`JSON.parse` throws or the parsed value has no usable string `message` (the
handler then throws at `log.message.substring` before any state mutation).
The handler body contains no `console` call, so the second component (the
lines it logs) is empty in every case. -/
def wsOnMessage (sh : List LogEvent → Int) (decoded : Option LogEvent)
    (st : PipelineState) : PipelineState × List String :=
  match decoded with
  | some log => (addLogEntry sh st log, [])
  | none => (st, [])

/-- Processing a sequence of frames, each through `ws.onmessage`. -/
def processFrames (sh : List LogEvent → Int) (st : PipelineState)
    (frames : List (Option LogEvent)) : PipelineState :=
  frames.foldl (fun s f => (wsOnMessage sh f s).1) st

/-- Outcome of the poll tick's `fetch('/api/logs')`: the promise rejects
(network error), or a response arrives with its `ok` flag and body —
`none` when `res.json()` throws, `some none` when the parsed body has no
`logs` field, `some (some logs)` otherwise. -/
inductive FetchOutcome
  | netError
  | response (ok : Bool) (body : Option (Option (List LogEvent)))

/-- One tick of the fallback poll `setInterval`: skipped entirely when the
socket exists and is `OPEN`; otherwise fetch `/api/logs`, feed `data.logs`
through `addLogEntry`, log `Polling failed` only when the fetch or
`res.json()` throws (a non-2xx response is skipped silently). Returns the
new pipeline state, the console lines emitted, and whether a fetch was
issued. -/
def pollTick (sh : List LogEvent → Int) (wsOpen : Bool) (outcome : FetchOutcome)
    (st : PipelineState) : PipelineState × List String × Bool :=
  if wsOpen then (st, [], false)
  else
    match outcome with
    | .netError => (st, [pollFailLine], true)
    | .response ok body =>
      if ok then
        match body with
        | none => (st, [pollFailLine], true)
        | some none => (st, [], true)
        | some (some logs) => (logs.foldl (addLogEntry sh) st, [], true)
      else (st, [], true)

/-- Full client state: current time (ms), the `ws` variable (readyState of
the socket it holds, `none` before the first `initWebSocket`), the pending
reconnect `setTimeout` (its due time), the next due time of the poll
`setInterval`, the pipeline state, and the console. -/
structure SysState where
  nowMs : Int
  ws : Option WsReadyState
  reconnectAt : Option Int
  pollDueAt : Int
  pipeline : PipelineState
  console : List String
deriving DecidableEq, Repr

/-- State after page load at time `t0`: `initWebSocket` has produced a
`CONNECTING` socket, no reconnect is pending, and the poll interval is due
in 10 s. -/
def initialSys (t0 : Int) : SysState :=
  { nowMs := t0
    ws := some .CONNECTING
    reconnectAt := none
    pollDueAt := t0 + 10000
    pipeline := initState
    console := [wsConnectingLine] }

/-- Whether the poll guard `ws && ws.readyState === WebSocket.OPEN` holds. -/
def wsIsOpen (s : SysState) : Bool :=
  decide (s.ws = some WsReadyState.OPEN)

/-- Event-loop events of the transport. -/
inductive SysLabel
  | wsOpens
  | wsFrame (decoded : Option LogEvent)
  | wsError
  | wsClose
  | reconnectFire
  | pollFire (outcome : FetchOutcome)
  | elapse (d : Int)

/-- Small-step transition relation of the transport, one constructor per
event-loop callback of `main.js`:
* `elapse` — time passes;
* `wsOpens` — `ws.onopen` fires on the connecting socket;
* `wsFrame` — `ws.onmessage` fires with the given parse outcome;
* `wsError` — `ws.onerror` fires: it only logs;
* `wsClose` — `ws.onclose` fires: it logs a warning and schedules
  `setTimeout(initWebSocket, 3000)`;
* `reconnectFire` — the pending reconnect timeout fires (never before its
  due time) and `initWebSocket` replaces `ws` with a fresh connecting
  socket;
* `pollFire` — the poll interval fires (never before its due time),
  reschedules itself 10 s later and runs `pollTick`. -/
inductive Step (sh : List LogEvent → Int) : SysState → SysLabel → SysState → Prop
  | elapse (s : SysState) (d : Int) (h : 0 ≤ d) :
      Step sh s (.elapse d) { s with nowMs := s.nowMs + d }
  | wsOpens (s : SysState) (h : s.ws = some .CONNECTING) :
      Step sh s .wsOpens
        { s with ws := some .OPEN, console := s.console ++ [wsConnectedLine] }
  | wsFrame (s : SysState) (decoded : Option LogEvent) (h : s.ws = some .OPEN) :
      Step sh s (.wsFrame decoded)
        { s with pipeline := (wsOnMessage sh decoded s.pipeline).1
                 console := s.console ++ (wsOnMessage sh decoded s.pipeline).2 }
  | wsError (s : SysState) (h : s.ws.isSome) :
      Step sh s .wsError { s with console := s.console ++ [wsErrorLine] }
  | wsClose (s : SysState) (w : WsReadyState) (h : s.ws = some w) (hw : w ≠ .CLOSED) :
      Step sh s .wsClose
        { s with ws := some .CLOSED
                 reconnectAt := some (s.nowMs + 3000)
                 console := s.console ++ [wsClosedLine] }
  | reconnectFire (s : SysState) (t : Int) (h : s.reconnectAt = some t)
      (hd : t ≤ s.nowMs) :
      Step sh s .reconnectFire
        { s with ws := some .CONNECTING
                 reconnectAt := none
                 console := s.console ++ [wsConnectingLine] }
  | pollFire (s : SysState) (outcome : FetchOutcome) (hd : s.pollDueAt ≤ s.nowMs) :
      Step sh s (.pollFire outcome)
        { s with pollDueAt := s.pollDueAt + 10000
                 pipeline := (pollTick sh (wsIsOpen s) outcome s.pipeline).1
                 console := s.console ++ (pollTick sh (wsIsOpen s) outcome s.pipeline).2.1 }

/-- States reachable from some page load. -/
inductive Reach (sh : List LogEvent → Int) : SysState → Prop
  | init (t0 : Int) : Reach sh (initialSys t0)
  | step {s : SysState} {l : SysLabel} {s' : SysState} :
      Reach sh s → Step sh s l s' → Reach sh s'

/-! ## Reconnect policy (C5) -/

/-- C5. Reconnect policy: every close of the push channel schedules a
reconnect exactly 3000 ms after the close (fixed backoff, no exponential
growth); the reconnect can only fire once its due time has passed, so a new
connection attempt occurs no sooner than 3 s after the close; any pending
reconnect in a reachable state is due within 3000 ms of the current time
(i.e. was scheduled by a close at most 3000 ms before its due time); and in
every reachable state in which the socket is closed a reconnect attempt is
pending — the client never gives up. -/
theorem c5_reconnect (sh : List LogEvent → Int) :
    (∀ s s' : SysState, Step sh s .wsClose s' →
      s'.reconnectAt = some (s.nowMs + 3000)) ∧
    (∀ s s' : SysState, Step sh s .reconnectFire s' →
      ∃ t, s.reconnectAt = some t ∧ t ≤ s.nowMs ∧ s'.ws = some .CONNECTING) ∧
    (∀ s : SysState, Reach sh s → ∀ t, s.reconnectAt = some t →
      t ≤ s.nowMs + 3000) ∧
    (∀ s : SysState, Reach sh s → s.ws = some .CLOSED →
      s.reconnectAt.isSome = true) := by
  refine ⟨?_, ?_, ?_, ?_⟩
  · intro s s' hstep
    cases hstep
    rfl
  · intro s s' hstep
    cases hstep with
    | reconnectFire t h hd => exact ⟨t, h, hd, rfl⟩
  · intro s hr
    induction hr with
    | init t0 => intro t ht; simp [initialSys] at ht
    | step hr hstep ih =>
      rename_i sPre _ _
      cases hstep with
      | elapse d h =>
        intro t ht
        have hle := ih t ht
        show t ≤ sPre.nowMs + d + 3000
        omega
      | wsOpens h => exact ih
      | wsFrame decoded h => exact ih
      | wsError h => exact ih
      | wsClose w h hw =>
        intro t ht
        have ht' : sPre.nowMs + 3000 = t := Option.some.inj ht
        show t ≤ sPre.nowMs + 3000
        omega
      | reconnectFire t h hd => intro t' ht'; simp at ht'
      | pollFire outcome hd => exact ih
  · intro s hr
    induction hr with
    | init t0 => intro hws; simp [initialSys] at hws
    | step hr hstep ih =>
      rename_i sPre _ _
      cases hstep with
      | elapse d h => exact ih
      | wsOpens h =>
        intro hws
        exact absurd (Option.some.inj hws) (by decide)
      | wsFrame decoded h =>
        intro hws
        have hws' : sPre.ws = some .CLOSED := hws
        rw [h] at hws'
        exact absurd (Option.some.inj hws') (by decide)
      | wsError h => exact ih
      | wsClose w h hw => intro _; rfl
      | reconnectFire t h hd =>
        intro hws
        exact absurd (Option.some.inj hws) (by decide)
      | pollFire outcome hd => exact ih

/-- Witness for C5: from a freshly loaded page at `t0 = 0`, the socket's
close schedules the reconnect at exactly 3000 ms, and the resulting
(reachable, closed) state has a pending reconnect. -/
theorem c5_reconnect_witness :
    ∃ s' : SysState, Step shZero (initialSys 0) .wsClose s' ∧
      s'.reconnectAt = some 3000 ∧ s'.reconnectAt.isSome = true := by
  have hstep : Step shZero (initialSys 0) .wsClose
      { initialSys 0 with
        ws := some .CLOSED
        reconnectAt := some ((initialSys 0).nowMs + 3000)
        console := (initialSys 0).console ++ [wsClosedLine] } :=
    Step.wsClose (initialSys 0) .CONNECTING rfl (by decide)
  refine ⟨_, hstep, ?_, ?_⟩
  · have h := (c5_reconnect shZero).1 _ _ hstep
    rw [h]
    decide
  · exact (c5_reconnect shZero).2.2.2 _ (Reach.step (Reach.init 0) hstep) rfl

/-! ## Single active source (C6) -/

/-- C6. Single-source invariant: the poll tick with the socket `OPEN` is a
no-op that issues no fetch; every firing of the poll interval reschedules it
exactly 10 s later whatever the channel state, and when the channel is
`OPEN` the fired tick changes neither the pipeline state nor the console and
issues no fetch; and the poll interval is enabled to fire in every state
whose due time has passed, regardless of the channel state. -/
theorem c6_poll_single_source (sh : List LogEvent → Int) :
    (∀ (outcome : FetchOutcome) (st : PipelineState),
      pollTick sh true outcome st = (st, [], false)) ∧
    (∀ (s : SysState) (outcome : FetchOutcome) (s' : SysState),
      Step sh s (.pollFire outcome) s' →
        s'.pollDueAt = s.pollDueAt + 10000 ∧
        (s.ws = some .OPEN →
          s'.pipeline = s.pipeline ∧ s'.console = s.console ∧
            (pollTick sh (wsIsOpen s) outcome s.pipeline).2.2 = false)) ∧
    (∀ (s : SysState) (outcome : FetchOutcome), s.pollDueAt ≤ s.nowMs →
      ∃ s', Step sh s (.pollFire outcome) s') := by
  refine ⟨fun outcome st => rfl, ?_, fun s outcome hd => ⟨_, Step.pollFire s outcome hd⟩⟩
  intro s outcome s' hstep
  cases hstep with
  | pollFire hd =>
    refine ⟨rfl, ?_⟩
    intro hws
    have hopen : wsIsOpen s = true := by
      unfold wsIsOpen
      rw [hws]
      decide
    have hpt : pollTick sh (wsIsOpen s) outcome s.pipeline = (s.pipeline, [], false) := by
      rw [hopen]
      rfl
    refine ⟨?_, ?_, ?_⟩
    · show (pollTick sh (wsIsOpen s) outcome s.pipeline).1 = s.pipeline
      rw [hpt]
    · show s.console ++ (pollTick sh (wsIsOpen s) outcome s.pipeline).2.1 = s.console
      rw [hpt]
      simp
    · rw [hpt]

/-- A state with an `OPEN` socket and an overdue poll timer. -/
def openPollState : SysState :=
  { nowMs := 20000
    ws := some .OPEN
    reconnectAt := none
    pollDueAt := 15000
    pipeline := initState
    console := [] }

/-- Witness for C6: with the channel `OPEN`, the overdue poll tick fires,
reschedules 10 s later, and leaves pipeline and console untouched with no
fetch issued. -/
theorem c6_poll_single_source_witness :
    ∃ s' : SysState,
      Step shZero openPollState
        (.pollFire (.response true (some (some [evM])))) s' ∧
      s'.pollDueAt = openPollState.pollDueAt + 10000 ∧
      s'.pipeline = openPollState.pipeline ∧
      s'.console = openPollState.console := by
  obtain ⟨s', hs⟩ := (c6_poll_single_source shZero).2.2 openPollState
    (.response true (some (some [evM]))) (by decide)
  have h2 := (c6_poll_single_source shZero).2.1 openPollState _ s' hs
  exact ⟨s', hs, h2.1, (h2.2 rfl).1, (h2.2 rfl).2.1⟩

/-! ## Malformed frames (C7) -/

/-- C7 counterexample. The claim asserts that a push-channel frame failing to
parse has its "parse failure ... logged". The `ws.onmessage` handler is
`const log = JSON.parse(e.data); addLogEntry(log);` with no try/catch and no
`console` call: on a malformed frame (parse outcome `none`) it emits NO
console line (the exception propagates out of the handler uncaught), while
leaving the pipeline state unchanged. At the concrete malformed frame below
the emitted log-line list is `[]`, refuting the "is logged" conjunct. -/
theorem c7_counterexample :
    wsOnMessage shZero none initState = (initState, []) := rfl

/-- C7 amended. For every push-channel frame that fails to parse as a
LogEvent, the handler drops only that frame — the pipeline state is
unchanged — and emits no console line of its own (the failure surfaces as an
uncaught exception instead of a code-side log); the failure is not fatal:
processing any sequence of frames is the same as processing just its
successfully parsed ones. -/
theorem c7_malformed_frame (sh : List LogEvent → Int) :
    (∀ st : PipelineState, wsOnMessage sh none st = (st, [])) ∧
    (∀ (st : PipelineState) (frames : List (Option LogEvent)),
      processFrames sh st frames =
        frames.reduceOption.foldl (addLogEntry sh) st) := by
  refine ⟨fun st => rfl, ?_⟩
  intro st frames
  induction frames generalizing st with
  | nil => rfl
  | cons f t ih =>
    cases f with
    | none =>
      rw [List.reduceOption_cons_of_none]
      exact ih st
    | some log =>
      rw [List.reduceOption_cons_of_some]
      exact ih (addLogEntry sh st log)

/-! ## Poll failures (C8) -/

/-- C8 counterexample. The claim asserts that a failing poll pull (network
error or non-2xx status) has "the failure ... only logged". For a non-2xx
response the code's `if (res.ok)` guard simply falls through with no
`console` call: at the concrete failing tick below (socket not open,
response not ok) the tick leaves the state unchanged and emits NO console
line, refuting the "is logged" conjunct for the non-2xx case. -/
theorem c8_counterexample :
    pollTick shZero false (.response false none) initState =
      (initState, [], true) := rfl

/-- C8 amended. A poll tick whose pull fails appends nothing and leaves the
pipeline state (DisplayBuffer and seen-set) unchanged, with no retry within
the tick; a network error (rejected fetch) and a response-body parse failure
are logged via the tick's catch, but a non-2xx response is skipped silently;
in no failure case is anything but a console line produced. -/
theorem c8_poll_failure (sh : List LogEvent → Int) :
    (∀ st : PipelineState,
      pollTick sh false .netError st = (st, [pollFailLine], true)) ∧
    (∀ (st : PipelineState) (body : Option (Option (List LogEvent))),
      pollTick sh false (.response false body) st = (st, [], true)) ∧
    (∀ st : PipelineState,
      pollTick sh false (.response true none) st = (st, [pollFailLine], true)) :=
  ⟨fun _ => rfl, fun _ _ => rfl, fun _ => rfl⟩
